import Mathlib

/-!
Shallow embedding of the "council" agent-orchestration core:
the identity & session store (src/lib/agents.ts), the memory index adapter
(src/lib/memory.ts) and the per-turn tool discovery / cleanup logic of the
chat route handler (src/unnamed/part_001).

The opaque collaborators (the Redis-backed key/value store, the semantic
memory index, remote MCP tool servers) are modelled as explicit state or as
oracle functions supplied to the operations.  JavaScript string primitives
used by the source (`trim`, `slice`, `localeCompare`, regex character-class
replacement) are modelled on `String.data` character lists.
-/

deriving instance DecidableEq for Except

namespace Council

/-- Whitespace predicate modelling the characters stripped by JavaScript
`String.prototype.trim` (restricted to the ASCII whitespace characters,
which are the only ones the development reasons about). -/
def jsIsWhitespace (c : Char) : Bool :=
  c = ' ' || c = '\t' || c = '\n' || c = '\r'

/-- Character-list version of JS `trim`: drop whitespace from both ends. -/
def trimList (l : List Char) : List Char :=
  ((l.dropWhile jsIsWhitespace).reverse.dropWhile jsIsWhitespace).reverse

/-- Model of JavaScript `String.prototype.trim`. -/
def jsTrim (s : String) : String :=
  ⟨trimList s.data⟩

/-- Model of JavaScript `String.prototype.slice(0, n)` (on ASCII text a code
unit is a character). -/
def jsSlice (s : String) (n : Nat) : String :=
  ⟨s.data.take n⟩

/-- Lexicographic comparison of `Nat` lists, `true` when `a` sorts no later
than `b`.  Used as the backbone of the collation model. -/
def keyLe : List Nat → List Nat → Bool
  | [], _ => true
  | _ :: _, [] => false
  | a :: as, b :: bs =>
    if a < b then true
    else if b < a then false
    else keyLe as bs

/-- Collation key modelling JavaScript `String.prototype.localeCompare`
under the default (root) locale, restricted to ASCII strings: primary
weights are the case-folded code points, compared across the whole string
first; ties are broken by case, lowercase before uppercase (so "a" sorts
before "B", unlike code-point order). -/
def collKey (s : String) : List Nat :=
  s.data.map (fun c => c.toLower.toNat + 2) ++
    0 :: s.data.map (fun c => if c.isUpper then 1 else 0)

/-- Comparator `a.localeCompare(b) <= 0` of the modelled collation. -/
def localeLeBool (a b : String) : Bool :=
  keyLe (collKey a) (collKey b)

/-- Code-point lexicographic comparison of character lists. -/
def charListLe : List Char → List Char → Bool
  | [], _ => true
  | _ :: _, [] => false
  | a :: as, b :: bs =>
    if a < b then true
    else if b < a then false
    else charListLe as bs

/-- Code-point ("case-sensitive lexical") string order, as the spec's words
describe the listing order. -/
def codepointLe (a b : String) : Bool :=
  charListLe a.data b.data

/-! ## Data model of the identity & session store (src/lib/agents.ts) -/

/-- The reserved session identifier (`DEFAULT_SESSION_ID`). -/
def defaultSessionId : String := "default"

structure Agent where
  id : String
  name : String
deriving DecidableEq

inductive McpTransport where
  | http
  | sse
deriving DecidableEq

structure AgentMcpServer where
  id : String
  name : String
  transport : McpTransport
  url : String
  headers : List (String × String)
  enabled : Bool
deriving DecidableEq

structure AgentSession where
  id : String
deriving DecidableEq

structure SessionTokenUsage where
  inputTokens : Nat
  reasoningTokens : Nat
  outputTokens : Nat
  totalTokens : Nat
deriving DecidableEq

/-- A role-tagged message of the session log (`ModelMessage`); its payload is
opaque to the store, so it is modelled as role plus content text. -/
structure Msg where
  role : String
  content : String
deriving DecidableEq

/-- The Redis hash stored at `agentKey(id)`; every field is optional exactly
as fields of a Redis hash are.  The `mcpServers` field holds a JSON-encoded
array in the source; serialization is modelled as the identity, so the field
holds the parsed list directly. -/
structure AgentRec where
  id : Option String := none
  name : Option String := none
  systemPrompt : Option String := none
  mcpServers : Option (List AgentMcpServer) := none
  createdAt : Option String := none
  updatedAt : Option String := none
deriving DecidableEq

/-- The Redis hash stored at `sessionKey(agentId, sessionId)`. -/
structure SessionRec where
  id : Option String := none
  agentId : Option String := none
  createdAt : Option String := none
  updatedAt : Option String := none
  lastMessageAt : Option String := none
  usageInputTokens : Option Nat := none
  usageReasoningTokens : Option Nat := none
  usageOutputTokens : Option Nat := none
  usageTotalTokens : Option Nat := none
deriving DecidableEq

/-- The durable store, one function per key family of the key-naming scheme
(`council:v1:agents`, `…:agent:<id>`, `…:sessions`, `…:session:<sid>`,
`…:messages`).  Missing keys are `none` / empty. -/
structure Store where
  agentsIndex : List String
  agents : String → Option AgentRec
  sessionSets : String → List String
  sessions : String → String → Option SessionRec
  messages : String → String → List Msg

/-- Point update of a one-key family. -/
def updFn {α : Type} (f : String → α) (k : String) (v : α) : String → α :=
  fun k' => if k' = k then v else f k'

/-- Point update of a two-key family. -/
def updFn2 {α : Type} (f : String → String → α) (k₁ k₂ : String) (v : α) :
    String → String → α :=
  fun a b => if a = k₁ ∧ b = k₂ then v else f a b

/-- Redis `SADD`: add a member to a set. -/
def saddList (l : List String) (x : String) : List String :=
  if x ∈ l then l else l ++ [x]

/-- Redis `HSET` on an agent hash: creates the hash when absent, then merges
the supplied fields. -/
def Store.hsetAgent (store : Store) (agentId : String) (f : AgentRec → AgentRec) : Store :=
  { store with agents := updFn store.agents agentId (some (f ((store.agents agentId).getD {}))) }

/-- Redis `HSET` on a session hash: creates the hash when absent, then merges
the supplied fields. -/
def Store.hsetSession (store : Store) (agentId sessionId : String)
    (f : SessionRec → SessionRec) : Store :=
  { store with
    sessions := updFn2 store.sessions agentId sessionId
      (some (f ((store.sessions agentId sessionId).getD {}))) }

/-- Errors thrown by the store, the memory adapter and the usage-accounting
code.  The source throws `Error` with a message; the constructors here stand
for the distinct messages (`NotFound`, `Conflict`, `InvalidInput` classes),
plus the JavaScript `TypeError` raised by dereferencing `undefined`. -/
inductive StoreError where
  | agentNotFound (agentId : String)
  | agentNameRequired
  | agentIdRequired
  | agentIdExists
  | systemPromptRequired
  | mcpServerIdRequired
  | mcpServerNameRequired
  | mcpServerUrlRequired
  | mcpServerIdExists (id : String)
  | mcpServerNotFound (id : String)
  | memoryContentRequired
  | memorySearchQueryRequired
  | typeError
deriving DecidableEq

/-! ## Operations of the identity & session store (src/lib/agents.ts)

Each operation takes the store (and, where the source reads the clock, an
explicit `now` timestamp; where it reads the bootstrap prompt file, an
explicit `bootstrapPrompt`) and returns `Except`: a thrown error carries no
new store, mirroring that the source performs no write before the throw on
every error path below. -/

/-- Sort relation used wherever the source sorts with
`a.name.localeCompare(b.name)`. -/
def agentNameRel : Agent → Agent → Prop :=
  fun a b => localeLeBool a.name b.name = true

instance : DecidableRel agentNameRel :=
  fun a b => inferInstanceAs (Decidable (localeLeBool a.name b.name = true))

/-- `listAgents`: read the agent id set, fetch each record, skip records
missing an id or name, and sort by display name with `localeCompare`. -/
def listAgents (store : Store) : List Agent :=
  let items := store.agentsIndex.filterMap (fun id =>
    match store.agents id with
    | none => none
    | some record =>
      if record.id.getD "" = "" ∨ record.name.getD "" = "" then none
      else some { id := record.id.getD "", name := record.name.getD "" })
  List.insertionSort agentNameRel items

/-- A definition following the spec's words rather than the source, for
comparison with `listAgents`: the same collection sorted in case-sensitive
lexical (code-point) order of the display name. -/
def listAgentsCodepointSorted (store : Store) : List Agent :=
  let items := store.agentsIndex.filterMap (fun id =>
    match store.agents id with
    | none => none
    | some record =>
      if record.id.getD "" = "" ∨ record.name.getD "" = "" then none
      else some { id := record.id.getD "", name := record.name.getD "" })
  List.insertionSort (fun a b => codepointLe a.name b.name = true) items

/-- `assertAgentExists`: `hgetall` the agent hash and require truthy `id` and
`name` fields. -/
def assertAgentExists (store : Store) (agentId : String) : Except StoreError AgentRec :=
  match store.agents agentId with
  | none => .error (.agentNotFound agentId)
  | some agent =>
    if agent.id.getD "" = "" ∨ agent.name.getD "" = "" then
      .error (.agentNotFound agentId)
    else .ok agent

/-- `ensureSession`: `SADD` the session id to the agent's session set; create
the session hash with zeroed usage counters when absent, else touch its
`updatedAt`; finally touch the agent hash's `updatedAt`. -/
def ensureSession (store : Store) (agentId sessionId timestamp : String) : Store :=
  let alreadyExists := (store.sessions agentId sessionId).isSome
  let store₁ :=
    { store with sessionSets := updFn store.sessionSets agentId (saddList (store.sessionSets agentId) sessionId) }
  let store₂ :=
    if alreadyExists then
      store₁.hsetSession agentId sessionId (fun r => { r with updatedAt := some timestamp })
    else
      store₁.hsetSession agentId sessionId (fun r =>
        { r with
          id := some sessionId
          agentId := some agentId
          createdAt := some timestamp
          updatedAt := some timestamp
          usageInputTokens := some 0
          usageReasoningTokens := some 0
          usageOutputTokens := some 0
          usageTotalTokens := some 0 })
  store₂.hsetAgent agentId (fun a => { a with updatedAt := some timestamp })

/-- `createAgent`: trim and validate both fields, reject an existing id, seed
the record with the bootstrap system prompt and an empty server list, index
the id, and create the reserved default session. -/
def createAgent (store : Store) (inputId inputName bootstrapPrompt now : String) :
    Except StoreError (Store × Agent) :=
  let name := jsTrim inputName
  let id := jsTrim inputId
  if name = "" then .error .agentNameRequired
  else if id = "" then .error .agentIdRequired
  else if (store.agents id).isSome then .error .agentIdExists
  else
    let store₁ := store.hsetAgent id (fun a =>
      { a with
        id := some id
        name := some name
        systemPrompt := some bootstrapPrompt
        mcpServers := some []
        createdAt := some now
        updatedAt := some now })
    let store₂ := { store₁ with agentsIndex := saddList store₁.agentsIndex id }
    .ok (ensureSession store₂ id defaultSessionId now, { id := id, name := name })

/-- `getSessionMessages`: assert the agent, then `LRANGE` the full log. -/
def getSessionMessages (store : Store) (agentId sessionId : String) :
    Except StoreError (List Msg) := do
  let _ ← assertAgentExists store agentId
  .ok (store.messages agentId sessionId)

/-- Sort relation of `listAgentSessions`: the reserved default session sorts
first, the rest by `localeCompare`. -/
def sessionOrderLe (a b : String) : Bool :=
  if a = defaultSessionId then true
  else if b = defaultSessionId then false
  else localeLeBool a b

def sessionOrderRel : String → String → Prop :=
  fun a b => sessionOrderLe a b = true

instance : DecidableRel sessionOrderRel :=
  fun a b => inferInstanceAs (Decidable (sessionOrderLe a b = true))

/-- `listAgentSessions`: assert the agent; when the session set is empty,
lazily create and return the default session; else return the set sorted
default-first. -/
def listAgentSessions (store : Store) (agentId now : String) :
    Except StoreError (Store × List AgentSession) := do
  let _ ← assertAgentExists store agentId
  let sessions := store.sessionSets agentId
  if sessions = [] then
    let store₁ := ensureSession store agentId defaultSessionId now
    .ok (store₁, [⟨defaultSessionId⟩])
  else
    .ok (store, (List.insertionSort sessionOrderRel sessions).map (fun id => ⟨id⟩))

/-- `appendSessionMessage`: assert the agent, lazily create the session,
`RPUSH` the message, and touch the session timestamps. -/
def appendSessionMessage (store : Store) (agentId sessionId : String) (message : Msg)
    (now : String) : Except StoreError (Store × Msg) := do
  let _ ← assertAgentExists store agentId
  let store₁ := ensureSession store agentId sessionId now
  let store₂ :=
    { store₁ with
      messages := updFn2 store₁.messages agentId sessionId
        (store₁.messages agentId sessionId ++ [message]) }
  let store₃ := store₂.hsetSession agentId sessionId (fun r =>
    { r with updatedAt := some now, lastMessageAt := some now })
  .ok (store₃, message)

/-- `appendSessionMessages`: return immediately on an empty batch (before the
agent-existence check), else assert the agent, lazily create the session,
`RPUSH` the batch, and touch the session timestamps. -/
def appendSessionMessages (store : Store) (agentId sessionId : String)
    (batch : List Msg) (now : String) : Except StoreError (Store × Unit) :=
  if batch = [] then .ok (store, ())
  else do
    let _ ← assertAgentExists store agentId
    let store₁ := ensureSession store agentId sessionId now
    let store₂ :=
      { store₁ with
        messages := updFn2 store₁.messages agentId sessionId
          (store₁.messages agentId sessionId ++ batch) }
    let store₃ := store₂.hsetSession agentId sessionId (fun r =>
      { r with updatedAt := some now, lastMessageAt := some now })
    .ok (store₃, ())

/-- `clearSessionMessages`: assert the agent, lazily create the session,
`DEL` the message log, and zero the four usage counters. -/
def clearSessionMessages (store : Store) (agentId sessionId now : String) :
    Except StoreError (Store × Unit) := do
  let _ ← assertAgentExists store agentId
  let store₁ := ensureSession store agentId sessionId now
  let store₂ :=
    { store₁ with messages := updFn2 store₁.messages agentId sessionId [] }
  let store₃ := store₂.hsetSession agentId sessionId (fun r =>
    { r with
      updatedAt := some now
      usageInputTokens := some 0
      usageReasoningTokens := some 0
      usageOutputTokens := some 0
      usageTotalTokens := some 0 })
  .ok (store₃, ())

/-- `getSessionTokenUsage`: assert the agent, read the session hash, and
coerce each missing counter to zero (`asNumber`). -/
def getSessionTokenUsage (store : Store) (agentId sessionId : String) :
    Except StoreError SessionTokenUsage := do
  let _ ← assertAgentExists store agentId
  let record := store.sessions agentId sessionId
  .ok
    { inputTokens := (record.bind (·.usageInputTokens)).getD 0
      reasoningTokens := (record.bind (·.usageReasoningTokens)).getD 0
      outputTokens := (record.bind (·.usageOutputTokens)).getD 0
      totalTokens := (record.bind (·.usageTotalTokens)).getD 0 }

/-- The `LanguageModelUsage` argument of `addSessionTokenUsage`; every field
may be absent, as in the source's use of `??` defaulting. -/
structure OutputTokenDetails where
  reasoningTokens : Option Nat := none
deriving DecidableEq

structure LanguageModelUsage where
  inputTokens : Option Nat := none
  reasoningTokens : Option Nat := none
  outputTokens : Option Nat := none
  totalTokens : Option Nat := none
  outputTokenDetails : Option OutputTokenDetails := none
deriving DecidableEq

/-- `addSessionTokenUsage`: read the current counters, default each delta
field with `??` — except that `usage.outputTokenDetails` is dereferenced
without a guard, so a missing `outputTokenDetails` raises a `TypeError`
before any write — then write back the field-wise sums. -/
def addSessionTokenUsage (store : Store) (agentId sessionId : String)
    (usage : LanguageModelUsage) (now : String) :
    Except StoreError (Store × SessionTokenUsage) := do
  let current ← getSessionTokenUsage store agentId sessionId
  let inputTokens := usage.inputTokens.getD 0
  let outputTokens := usage.outputTokens.getD 0
  let reasoningTokens ←
    match usage.outputTokenDetails with
    | none => Except.error StoreError.typeError
    | some details => Except.ok ((details.reasoningTokens.orElse fun _ => usage.reasoningTokens).getD 0)
  let totalTokens := usage.totalTokens.getD (inputTokens + outputTokens)
  let next : SessionTokenUsage :=
    { inputTokens := current.inputTokens + inputTokens
      reasoningTokens := current.reasoningTokens + reasoningTokens
      outputTokens := current.outputTokens + outputTokens
      totalTokens := current.totalTokens + totalTokens }
  let store₁ := store.hsetSession agentId sessionId (fun r =>
    { r with
      usageInputTokens := some next.inputTokens
      usageReasoningTokens := some next.reasoningTokens
      usageOutputTokens := some next.outputTokens
      usageTotalTokens := some next.totalTokens
      updatedAt := some now })
  .ok (store₁, next)

/-- `getAgentSystemPrompt`: assert the agent; fall back to the bootstrap
prompt when the record has none. -/
def getAgentSystemPrompt (store : Store) (agentId bootstrapPrompt : String) :
    Except StoreError String := do
  let agent ← assertAgentExists store agentId
  .ok (agent.systemPrompt.getD bootstrapPrompt)

/-- `updateAgentSystemPrompt`: trim and reject a blank prompt (before the
agent-existence check), then assert the agent and write the new prompt. -/
def updateAgentSystemPrompt (store : Store) (agentId systemPrompt now : String) :
    Except StoreError (Store × Unit) :=
  let nextPrompt := jsTrim systemPrompt
  if nextPrompt = "" then .error .systemPromptRequired
  else do
    let _ ← assertAgentExists store agentId
    .ok (store.hsetAgent agentId (fun a =>
      { a with systemPrompt := some nextPrompt, updatedAt := some now }), ())

/-! ## Remote tool-server configuration CRUD (src/lib/agents.ts) -/

/-- `normalizeHeaders`: keep entries with a non-blank key, trimming it. -/
def normalizeHeaders (headers : List (String × String)) : List (String × String) :=
  headers.filterMap (fun kv => if jsTrim kv.1 = "" then none else some (jsTrim kv.1, kv.2))

/-- `normalizeMcpServer` on an already-typed payload: trim and require the
id, name and URL; normalize the headers.  (`normalizeTransport` is the
identity on the typed transport enum.) -/
def normalizeMcpServer (input : AgentMcpServer) : Except StoreError AgentMcpServer :=
  if jsTrim input.id = "" then .error .mcpServerIdRequired
  else if jsTrim input.name = "" then .error .mcpServerNameRequired
  else if jsTrim input.url = "" then .error .mcpServerUrlRequired
  else
    .ok
      { id := jsTrim input.id
        name := jsTrim input.name
        transport := input.transport
        url := jsTrim input.url
        headers := normalizeHeaders input.headers
        enabled := input.enabled }

/-- `parseStoredMcpServers`: a missing field reads as the empty list
(serialization itself is modelled as the identity; the source additionally
skips entries that fail to re-normalize, which a typed stored list cannot
contain). -/
def parseStoredMcpServers (agent : AgentRec) : List AgentMcpServer :=
  agent.mcpServers.getD []

/-- Sort relation used when a server list is saved:
`a.name.localeCompare(b.name)`. -/
def serverNameRel : AgentMcpServer → AgentMcpServer → Prop :=
  fun a b => localeLeBool a.name b.name = true

instance : DecidableRel serverNameRel :=
  fun a b => inferInstanceAs (Decidable (localeLeBool a.name b.name = true))

/-- `saveAgentMcpServers`: write the list back to the agent hash. -/
def saveAgentMcpServers (store : Store) (agentId : String)
    (servers : List AgentMcpServer) (now : String) : Store :=
  store.hsetAgent agentId (fun a =>
    { a with mcpServers := some servers, updatedAt := some now })

/-- `listAgentMcpServers`. -/
def listAgentMcpServers (store : Store) (agentId : String) :
    Except StoreError (List AgentMcpServer) := do
  let agent ← assertAgentExists store agentId
  .ok (parseStoredMcpServers agent)

/-- `addAgentMcpServer`: reject an id collision, else append and save the
name-sorted list. -/
def addAgentMcpServer (store : Store) (agentId : String) (server : AgentMcpServer)
    (now : String) : Except StoreError (Store × List AgentMcpServer) := do
  let agent ← assertAgentExists store agentId
  let servers := parseStoredMcpServers agent
  let next ← normalizeMcpServer server
  if servers.any (fun s => s.id == next.id) then .error (.mcpServerIdExists next.id)
  else
    let updated := List.insertionSort serverNameRel (servers ++ [next])
    .ok (saveAgentMcpServers store agentId updated now, updated)

/-- `updateAgentMcpServer`: require the target id, reject an unknown target
or a collision with a different record, else replace and save the
name-sorted list. -/
def updateAgentMcpServer (store : Store) (agentId serverId : String)
    (server : AgentMcpServer) (now : String) :
    Except StoreError (Store × List AgentMcpServer) := do
  let agent ← assertAgentExists store agentId
  let servers := parseStoredMcpServers agent
  let targetId := jsTrim serverId
  if targetId = "" then .error .mcpServerIdRequired
  else
    match servers.findIdx? (fun s => s.id == targetId) with
    | none => .error (.mcpServerNotFound targetId)
    | some index => do
      let next ← normalizeMcpServer server
      if servers.any (fun s => s.id == next.id && s.id != targetId) then
        .error (.mcpServerIdExists next.id)
      else
        let updated := List.insertionSort serverNameRel (servers.set index next)
        .ok (saveAgentMcpServers store agentId updated now, updated)

/-- `deleteAgentMcpServer`: require the target id, filter it out, and reject
when nothing was removed. -/
def deleteAgentMcpServer (store : Store) (agentId serverId : String) (now : String) :
    Except StoreError (Store × List AgentMcpServer) := do
  let agent ← assertAgentExists store agentId
  let servers := parseStoredMcpServers agent
  let targetId := jsTrim serverId
  if targetId = "" then .error .mcpServerIdRequired
  else
    let updated := servers.filter (fun s => s.id != targetId)
    if updated.length = servers.length then .error (.mcpServerNotFound targetId)
    else .ok (saveAgentMcpServers store agentId updated now, updated)

/-! ## Memory index adapter (src/lib/memory.ts)

The semantic index is opaque; per agent it is modelled as fetch-by-id
(`String → Option AgentMemoryDocument`) for `appendAgentMemory` and as a
cursor-based `range` oracle for `listAgentMemories`. -/

structure MemoryContent where
  text : String
  day : String
  createdAt : String
  updatedAt : String
  entries : Nat
deriving DecidableEq

structure MemoryMetadata where
  agentId : String
  day : String
deriving DecidableEq

structure AgentMemoryDocument where
  id : String
  content : MemoryContent
  metadata : Option MemoryMetadata := none
deriving DecidableEq

/-- One agent's index, as the fetch-by-id view `appendAgentMemory` uses. -/
def MemoryIndex : Type := String → Option AgentMemoryDocument

structure MemoryAppendResult where
  index : String
  id : String
  entries : Nat
deriving DecidableEq

/-- The timestamped line appended for one memory entry. -/
def memoryLine (now content : String) : String :=
  "[" ++ now ++ "] " ++ jsTrim content

/-- `appendAgentMemory`: reject blank content; bucket by the calendar day
`now.slice(0, 10)`; append a timestamped line to that day's document (or
start it), increment its entry counter, and upsert. -/
def appendAgentMemory (idx : MemoryIndex) (agentId rawContent now : String) :
    Except StoreError (MemoryIndex × MemoryAppendResult) :=
  let content := jsTrim rawContent
  if content = "" then .error .memoryContentRequired
  else
    let dayId := jsSlice now 10
    let existingDoc := idx dayId
    let previousText := (existingDoc.map (fun d => jsTrim d.content.text)).getD ""
    let previousEntries := (existingDoc.map (fun d => d.content.entries)).getD 0
    let previousCreatedAt := (existingDoc.map (fun d => d.content.createdAt)).getD now
    let nextEntries := previousEntries + 1
    let appendedLine := memoryLine now rawContent
    let nextText := if previousText = "" then appendedLine
      else previousText ++ "\n" ++ appendedLine
    let doc : AgentMemoryDocument :=
      { id := dayId
        content :=
          { text := nextText
            day := dayId
            createdAt := previousCreatedAt
            updatedAt := now
            entries := nextEntries }
        metadata := some { agentId := agentId, day := dayId } }
    .ok (updFn idx dayId (some doc), { index := agentId, id := dayId, entries := nextEntries })

/-- One page returned by the index's cursor-based `range` enumeration. -/
structure MemoryPage where
  documents : List AgentMemoryDocument
  nextCursor : Option String

/-- The bounded pagination loop of `listAgentMemories`: at most `fuel`
iterations, breaking on a previously seen cursor or an absent next cursor.
Returns the collected documents and the list of cursors actually queried. -/
def listMemoriesLoop (range : String → MemoryPage) :
    Nat → String → List String → List AgentMemoryDocument × List String
  | 0, _, _ => ([], [])
  | fuel + 1, cursor, seenCursors =>
    if cursor ∈ seenCursors then ([], [])
    else
      let page := range cursor
      match page.nextCursor with
      | none => (page.documents, [cursor])
      | some next =>
        let rest := listMemoriesLoop range fuel next (cursor :: seenCursors)
        (page.documents ++ rest.1, cursor :: rest.2)

/-- Sort relation of `listAgentMemories`: `b.id.localeCompare(a.id)`, i.e.
day identifier descending. -/
def memoryDescRel : AgentMemoryDocument → AgentMemoryDocument → Prop :=
  fun a b => localeLeBool b.id a.id = true

instance : DecidableRel memoryDescRel :=
  fun a b => inferInstanceAs (Decidable (localeLeBool b.id a.id = true))

/-- `listAgentMemories`: paginate from cursor "0" for at most 20 pages and
sort the collected documents by day identifier descending. -/
def listAgentMemories (range : String → MemoryPage) : List AgentMemoryDocument :=
  List.insertionSort memoryDescRel (listMemoriesLoop range 20 "0" []).1

/-- The cursors `listAgentMemories` queries the index with, in order. -/
def listAgentMemoriesCursors (range : String → MemoryPage) : List String :=
  (listMemoriesLoop range 20 "0" []).2

/-! ## Per-turn remote tool discovery and cleanup (src/unnamed/part_001) -/

/-- Character sanitizer of `getScopedMcpToolName`: the regex replacement
`replace(/[^a-zA-Z0-9_]/g, "_")`. -/
def sanitizeMcpChar (c : Char) : Char :=
  if c.isAlphanum || c = '_' then c else '_'

/-- Sanitize a server identifier or tool name. -/
def sanitizeMcpName (s : String) : String :=
  ⟨s.data.map sanitizeMcpChar⟩

/-- `getScopedMcpToolName`: `mcp_<safeServerId>__<safeToolName>`. -/
def getScopedMcpToolName (server : AgentMcpServer) (toolName : String) : String :=
  "mcp_" ++ sanitizeMcpName server.id ++ "__" ++ sanitizeMcpName toolName

/-- Outcome of discovering one enabled server's tools: `createMCPClient`
throws before the client is recorded, `client.tools()` throws after, or the
catalogue is returned. -/
inductive DiscOutcome where
  | createFail
  | toolsFail
  | ok (toolCount : Nat)
deriving DecidableEq

/-- How the generation phase of the turn ends. -/
inductive GenOutcome where
  | success
  | genError
  | cancelled
deriving DecidableEq

/-- Observable events of one turn, with remote clients named by their server
index. -/
inductive TurnEvent where
  | opened (server : Nat)
  | modelInvoked
  | streamed
  | closeAttempted (server : Nat)
  | errorResponse
deriving DecidableEq

/-- `closeMcpClients`: `Promise.allSettled` over `client.close()` — every
close is attempted and its outcome collected, independent of the other
closes' outcomes. -/
def closeMcpClients (closeOk : Nat → Bool) (clients : List Nat) : List (Nat × Bool) :=
  clients.map (fun c => (c, closeOk c))

/-- The discovery loop over the enabled servers in configuration order:
returns the clients opened so far (a client is recorded before its catalogue
is queried) and whether the loop threw. -/
def discoverMcp (outcome : Nat → DiscOutcome) : List Nat → List Nat × Bool
  | [] => ([], false)
  | s :: rest =>
    match outcome s with
    | .createFail => ([], true)
    | .toolsFail => ([s], true)
    | .ok _ =>
      let r := discoverMcp outcome rest
      (s :: r.1, r.2)

/-- Events the generation/stream phase itself contributes. -/
def genEvents : GenOutcome → List TurnEvent
  | .success => [.streamed]
  | .genError => [.errorResponse]
  | .cancelled => []

/-- Event trace of one `POST` turn: if discovery throws, the opened clients
are closed and an error response is returned before the model agent is ever
constructed; otherwise the model is invoked, the stream runs to its outcome,
and the `finally` block closes the opened clients on every exit path. -/
def turnTrace (servers : List Nat) (outcome : Nat → DiscOutcome) (gen : GenOutcome)
    (closeOk : Nat → Bool) : List TurnEvent :=
  let disc := discoverMcp outcome servers
  if disc.2 then
    (disc.1.map .opened) ++
      ((closeMcpClients closeOk disc.1).map (fun r => .closeAttempted r.1)) ++
      [.errorResponse]
  else
    (disc.1.map .opened) ++ [.modelInvoked] ++ genEvents gen ++
      ((closeMcpClients closeOk disc.1).map (fun r => .closeAttempted r.1))

/-! ## Order facts for the sort relations -/

/-- `keyLe` as a relation, to carry its order instances. -/
def keyLeRel : List Nat → List Nat → Prop := fun a b => keyLe a b = true

instance : IsTotal (List Nat) keyLeRel := ⟨by
  intro a
  induction a with
  | nil => intro b; left; rfl
  | cons x xs ih =>
    intro b
    cases b with
    | nil => right; rfl
    | cons y ys =>
      simp only [keyLeRel, keyLe]
      rcases Nat.lt_trichotomy x y with h | h | h
      · left; simp [h]
      · subst h
        simp only [Nat.lt_irrefl, if_false]
        exact ih ys
      · right; simp [h]⟩

instance : IsTrans (List Nat) keyLeRel := ⟨by
  intro a
  induction a with
  | nil => intro b c _ _; rfl
  | cons x xs ih =>
    intro b c hab hbc
    cases b with
    | nil => simp [keyLeRel, keyLe] at hab
    | cons y ys =>
      cases c with
      | nil => simp [keyLeRel, keyLe] at hbc
      | cons z zs =>
        simp only [keyLeRel, keyLe] at hab hbc ⊢
        by_cases hxy : x < y
        · by_cases hyz : y < z
          · simp [show x < z by omega]
          · by_cases hzy : z < y
            · simp [hyz, hzy] at hbc
            · have hy : y = z := by omega
              subst hy
              simp [hxy]
        · by_cases hyx : y < x
          · simp [hxy, hyx] at hab
          · have hx : x = y := by omega
            subst hx
            by_cases hxz : x < z
            · simp [hxz]
            · by_cases hzx : z < x
              · simp [hxz, hzx] at hbc
              · have hz : x = z := by omega
                subst hz
                simp only [Nat.lt_irrefl, if_false] at hab hbc ⊢
                exact ih ys zs hab hbc⟩

instance : IsTotal Agent agentNameRel :=
  ⟨fun a b => IsTotal.total (r := keyLeRel) (collKey a.name) (collKey b.name)⟩

instance : IsTrans Agent agentNameRel :=
  ⟨fun _ _ _ hab hbc => IsTrans.trans (r := keyLeRel) _ _ _ hab hbc⟩

instance : IsTotal AgentMcpServer serverNameRel :=
  ⟨fun a b => IsTotal.total (r := keyLeRel) (collKey a.name) (collKey b.name)⟩

instance : IsTrans AgentMcpServer serverNameRel :=
  ⟨fun _ _ _ hab hbc => IsTrans.trans (r := keyLeRel) _ _ _ hab hbc⟩

instance : IsTotal AgentMemoryDocument memoryDescRel :=
  ⟨fun a b => Or.symm (IsTotal.total (r := keyLeRel) (collKey a.id) (collKey b.id))⟩

instance : IsTrans AgentMemoryDocument memoryDescRel :=
  ⟨fun _ _ _ hab hbc => IsTrans.trans (r := keyLeRel) _ _ _ hbc hab⟩

instance : IsTotal String sessionOrderRel := ⟨by
  intro a b
  simp only [sessionOrderRel, sessionOrderLe]
  by_cases ha : a = defaultSessionId
  · left; simp [ha]
  · by_cases hb : b = defaultSessionId
    · right; simp [hb]
    · simp only [ha, hb, if_false]
      exact IsTotal.total (r := keyLeRel) (collKey a) (collKey b)⟩

instance : IsTrans String sessionOrderRel := ⟨by
  intro a b c hab hbc
  simp only [sessionOrderRel, sessionOrderLe] at hab hbc ⊢
  by_cases ha : a = defaultSessionId
  · simp [ha]
  · simp only [ha, if_false] at hab ⊢
    by_cases hb : b = defaultSessionId
    · simp [hb] at hab
    · simp only [hb, if_false] at hab hbc
      by_cases hc : c = defaultSessionId
      · simp [hc] at hbc
      · simp only [hc, if_false] at hbc ⊢
        exact IsTrans.trans (r := keyLeRel) _ _ _ hab hbc⟩

/-! ## Fixtures and claim-support definitions -/

/-- A store with no agents, sessions or messages. -/
def emptyStore : Store :=
  { agentsIndex := []
    agents := fun _ => none
    sessionSets := fun _ => []
    sessions := fun _ _ => none
    messages := fun _ _ => [] }

def opsAgentRec : AgentRec :=
  { id := some "ops"
    name := some "Ops"
    systemPrompt := some "Be helpful."
    mcpServers := some []
    createdAt := some "2024-01-01T00:00:00Z"
    updatedAt := some "2024-01-01T00:00:00Z" }

/-- A store holding the single agent "ops" with no sessions yet. -/
def opsStore : Store :=
  { emptyStore with
    agentsIndex := ["ops"]
    agents := updFn emptyStore.agents "ops" (some opsAgentRec) }

/-- Server whose identifier contains a character outside `[A-Za-z0-9_]`. -/
def cexServerDot : AgentMcpServer :=
  { id := "a.b", name := "Dot", transport := .http, url := "http://dot.example",
    headers := [], enabled := true }

/-- Server whose identifier is the sanitized image of `cexServerDot`'s. -/
def cexServerUnderscore : AgentMcpServer :=
  { id := "a_b", name := "Underscore", transport := .sse, url := "http://u.example",
    headers := [], enabled := true }

def cexAgentRecLowerA : AgentRec :=
  { id := some "x1", name := some "a", systemPrompt := some "p",
    mcpServers := some [], createdAt := some "T", updatedAt := some "T" }

def cexAgentRecUpperB : AgentRec :=
  { id := some "y1", name := some "B", systemPrompt := some "p",
    mcpServers := some [], createdAt := some "T", updatedAt := some "T" }

/-- A store with two agents whose display names order differently under the
root-locale collation ("a" before "B") and code-point order ("B" before "a"). -/
def cexAgentsStore : Store :=
  { emptyStore with
    agentsIndex := ["x1", "y1"]
    agents := updFn (updFn emptyStore.agents "x1" (some cexAgentRecLowerA)) "y1"
      (some cexAgentRecUpperB) }

/-- A usage delta `(i, r, o, t)` with every field present, reasoning tokens
carried in `outputTokenDetails` as the source reads them first. -/
def mkUsageDelta (d : Nat × Nat × Nat × Nat) : LanguageModelUsage :=
  { inputTokens := some d.1
    reasoningTokens := none
    outputTokens := some d.2.2.1
    totalTokens := some d.2.2.2
    outputTokenDetails := some { reasoningTokens := some d.2.1 } }

/-- Apply a sequence of `addSessionTokenUsage` calls one at a time. -/
def addUsageDeltas (store : Store) (agentId sessionId : String)
    (deltas : List (Nat × Nat × Nat × Nat)) (now : String) : Except StoreError Store :=
  match deltas with
  | [] => .ok store
  | d :: rest => do
    let r ← addSessionTokenUsage store agentId sessionId (mkUsageDelta d) now
    addUsageDeltas r.1 agentId sessionId rest now

/-- Field-wise sum of a delta sequence. -/
def sumUsage (deltas : List (Nat × Nat × Nat × Nat)) : SessionTokenUsage :=
  { inputTokens := (deltas.map (fun d => d.1)).sum
    reasoningTokens := (deltas.map (fun d => d.2.1)).sum
    outputTokens := (deltas.map (fun d => d.2.2.1)).sum
    totalTokens := (deltas.map (fun d => d.2.2.2)).sum }

/-- The store produced by a successful `appendSessionMessage` (named so that
theorems can speak about its components). -/
def appendOneStore (store : Store) (agentId sessionId : String) (m : Msg) (now : String) : Store :=
  Store.hsetSession
    { ensureSession store agentId sessionId now with
      messages := updFn2 (ensureSession store agentId sessionId now).messages agentId sessionId
        ((ensureSession store agentId sessionId now).messages agentId sessionId ++ [m]) }
    agentId sessionId (fun r => { r with updatedAt := some now, lastMessageAt := some now })

/-! ## Helper lemmas -/

theorem exceptBind_ok {ε α β} (a : α) (f : α → Except ε β) :
    (Except.ok a >>= f) = f a := rfl

theorem exceptBind_error {ε α β} (e : ε) (f : α → Except ε β) :
    ((Except.error e : Except ε α) >>= f) = Except.error e := rfl

/-! ## Claim C1 — scoped remote tool names -/

/-- Claim C1 counterexample: the servers `a.b` and `a_b` have distinct
identifiers, yet a common tool name receives the same scoped name for both,
because sanitization identifies the two identifiers.  The claim as stated
(distinct raw identifiers imply distinct scoped names) is false. -/
theorem c1_scoped_name_collision_cex :
    cexServerDot.id ≠ cexServerUnderscore.id ∧
    getScopedMcpToolName cexServerDot "echo" =
      getScopedMcpToolName cexServerUnderscore "echo" := by
  exact ⟨by decide, rfl⟩

/-- Claim C1 (amended): for two server configurations whose sanitized
identifiers are distinct, the scoped names of a common tool name are
distinct; and the scoped name is deterministic, depending only on the server
identifier and the tool name. -/
theorem c1_scoped_names_amended :
    (∀ (s₁ s₂ : AgentMcpServer) (t : String),
      sanitizeMcpName s₁.id ≠ sanitizeMcpName s₂.id →
      getScopedMcpToolName s₁ t ≠ getScopedMcpToolName s₂ t) ∧
    (∀ (s₁ s₂ : AgentMcpServer) (t : String),
      s₁.id = s₂.id → getScopedMcpToolName s₁ t = getScopedMcpToolName s₂ t) := by
  constructor
  · intro s₁ s₂ t hid heq
    apply hid
    unfold getScopedMcpToolName at heq
    have h := congrArg String.data heq
    simp only [String.data_append] at h
    exact String.ext (List.append_cancel_left
      (List.append_cancel_right (List.append_cancel_right h)))
  · intro s₁ s₂ t h
    unfold getScopedMcpToolName
    rw [h]

/-- Witness for C1's amended theorem at concrete inputs. -/
theorem c1_scoped_names_amended_witness :
    getScopedMcpToolName cexServerDot "echo" ≠
      getScopedMcpToolName { cexServerDot with id := "zz" } "echo" ∧
    getScopedMcpToolName cexServerDot "echo" =
      getScopedMcpToolName { cexServerDot with name := "Other" } "echo" := by
  exact ⟨c1_scoped_names_amended.1 _ _ _ (by decide),
    c1_scoped_names_amended.2 _ _ _ rfl⟩

/-! ## Claim C8 — agent listing order -/

/-- Claim C8 counterexample: with agents named "a" and "B", `listAgents`
returns them in root-locale collation order ("a" first), which differs from
case-sensitive code-point order ("B" first); the claim as stated is false. -/
theorem c8_list_agents_codepoint_cex :
    listAgents cexAgentsStore ≠ listAgentsCodepointSorted cexAgentsStore := by
  decide

/-- Claim C8 (amended): `listAgents` returns exactly the stored agents with
a truthy id and name, sorted by display name under the locale-aware
`localeCompare` collation (which orders case-insensitively at the primary
level, e.g. "a" before "B"), not in code-point order. -/
theorem c8_list_agents_sorted_amended (store : Store) :
    List.Sorted agentNameRel (listAgents store) ∧
    (listAgents store).Perm (store.agentsIndex.filterMap (fun id =>
      match store.agents id with
      | none => none
      | some record =>
        if record.id.getD "" = "" ∨ record.name.getD "" = "" then none
        else some { id := record.id.getD "", name := record.name.getD "" })) := by
  exact ⟨List.sorted_insertionSort agentNameRel _, List.perm_insertionSort agentNameRel _⟩

/-! ## Claim C9 — bounded memory pagination -/

/-- The pagination loop queries at most `fuel` cursors, none of them
previously seen, and never queries the same cursor twice. -/
theorem listMemoriesLoop_cursors_facts (range : String → MemoryPage) :
    ∀ (fuel : Nat) (cursor : String) (seen : List String),
      (listMemoriesLoop range fuel cursor seen).2.length ≤ fuel ∧
      (∀ c ∈ (listMemoriesLoop range fuel cursor seen).2, c ∉ seen) ∧
      (listMemoriesLoop range fuel cursor seen).2.Nodup := by
  intro fuel
  induction fuel with
  | zero =>
    intro cursor seen
    simp [listMemoriesLoop]
  | succ n ih =>
    intro cursor seen
    simp only [listMemoriesLoop]
    by_cases hmem : cursor ∈ seen
    · simp [hmem]
    · simp only [hmem, if_false]
      cases hnext : (range cursor).nextCursor with
      | none =>
        refine ⟨by simp, ?_, by simp⟩
        intro c hc
        rw [List.mem_singleton] at hc
        subst hc
        exact hmem
      | some next =>
        obtain ⟨hlen, hnotin, hnodup⟩ := ih next (cursor :: seen)
        refine ⟨?_, ?_, ?_⟩
        · simpa using Nat.succ_le_succ hlen
        · intro c hc
          simp only [List.mem_cons] at hc
          rcases hc with rfl | hc
          · exact hmem
          · intro hcseen
            exact hnotin c hc (List.mem_cons_of_mem _ hcseen)
        · rw [List.nodup_cons]
          refine ⟨?_, hnodup⟩
          intro hcur
          exact hnotin cursor hcur (List.mem_cons_self _ _)

/-- Claim C9: for every behaviour of the backing index, `listAgentMemories`
queries at most 20 pages, never re-queries a repeated cursor, and returns
the collected documents sorted by day identifier descending. -/
theorem c9_list_memories_bounded_sorted (range : String → MemoryPage) :
    (listAgentMemoriesCursors range).length ≤ 20 ∧
    (listAgentMemoriesCursors range).Nodup ∧
    List.Sorted memoryDescRel (listAgentMemories range) ∧
    (listAgentMemories range).Perm (listMemoriesLoop range 20 "0" []).1 := by
  obtain ⟨h1, _, h3⟩ := listMemoriesLoop_cursors_facts range 20 "0" []
  exact ⟨h1, h3, List.sorted_insertionSort memoryDescRel _,
    List.perm_insertionSort memoryDescRel _⟩

/-! ## Claim C3 — turn-scoped connection handling -/

/-- Claim C3: if discovery of any enabled server's tools fails, the model is
never invoked and the failure is surfaced as an error response; on every
exit path of the turn (success, generation error, cancellation, and the
discovery-failure path) a close is attempted for every opened connection;
and `closeMcpClients` attempts every close regardless of individual close
failures. -/
theorem closeMcpClients_map_fst (closeOk : Nat → Bool) :
    ∀ l : List Nat, (closeMcpClients closeOk l).map Prod.fst = l := by
  intro l
  induction l with
  | nil => rfl
  | cons x xs ih =>
    simp only [closeMcpClients, List.map_cons] at ih ⊢
    rw [ih]

theorem closeAttempted_mem_of_mem (closeOk : Nat → Bool) {l : List Nat} {s : Nat}
    (h : s ∈ l) :
    TurnEvent.closeAttempted s ∈
      (closeMcpClients closeOk l).map (fun r => TurnEvent.closeAttempted r.1) :=
  List.mem_map_of_mem _ (List.mem_map_of_mem _ h)

theorem c3_turn_cleanup (servers : List Nat) (outcome : Nat → DiscOutcome)
    (gen : GenOutcome) (closeOk : Nat → Bool) :
    ((discoverMcp outcome servers).2 = true →
      TurnEvent.modelInvoked ∉ turnTrace servers outcome gen closeOk ∧
      TurnEvent.errorResponse ∈ turnTrace servers outcome gen closeOk) ∧
    (∀ s, TurnEvent.opened s ∈ turnTrace servers outcome gen closeOk →
      TurnEvent.closeAttempted s ∈ turnTrace servers outcome gen closeOk) ∧
    (closeMcpClients closeOk (discoverMcp outcome servers).1).map Prod.fst =
      (discoverMcp outcome servers).1 := by
  refine ⟨?_, ?_, ?_⟩
  · intro hfail
    unfold turnTrace
    simp only [hfail, if_true]
    refine ⟨?_, by simp⟩
    intro hmem
    simp [closeMcpClients, List.map_map, Function.comp_def] at hmem
  · intro s hs
    have hmem : s ∈ (discoverMcp outcome servers).1 := by
      unfold turnTrace at hs
      by_cases hd : (discoverMcp outcome servers).2 = true <;>
        cases gen <;>
        simp only [hd, if_true, if_false] at hs <;>
        simp [closeMcpClients, List.map_map, Function.comp_def, genEvents] at hs <;>
        exact hs
    unfold turnTrace
    by_cases hd : (discoverMcp outcome servers).2 = true <;>
      simp [hd, closeMcpClients, List.map_map, Function.comp_def, List.mem_append] <;>
      tauto
  · exact closeMcpClients_map_fst closeOk _

/-- Witness for C3 at a concrete failing discovery. -/
theorem c3_turn_cleanup_witness :
    TurnEvent.modelInvoked ∉
      turnTrace [0, 1] (fun n => if n = 1 then .toolsFail else .ok 2)
        GenOutcome.success (fun _ => false) ∧
    TurnEvent.closeAttempted 0 ∈
      turnTrace [0, 1] (fun n => if n = 1 then .toolsFail else .ok 2)
        GenOutcome.success (fun _ => false) := by
  have h := c3_turn_cleanup [0, 1] (fun n => if n = 1 then .toolsFail else .ok 2)
    GenOutcome.success (fun _ => false)
  exact ⟨(h.1 (by decide)).1, h.2.1 0 (by decide)⟩

/-! ## Claim C10 — unguarded outputTokenDetails dereference -/

/-- Claim C10: `addSessionTokenUsage` dereferences
`usage.outputTokenDetails` without a guard: when the field is absent the
call raises a `TypeError` before any write (the error carries no updated
store, so the stored counters are unchanged); when the field is present
that error branch is unreachable and the call performs the update. -/
theorem c10_missing_details_type_error (store : Store) (agentId sessionId now : String)
    (usage : LanguageModelUsage) (u : SessionTokenUsage)
    (hread : getSessionTokenUsage store agentId sessionId = .ok u) :
    (usage.outputTokenDetails = none →
      addSessionTokenUsage store agentId sessionId usage now = .error .typeError) ∧
    (∀ d, usage.outputTokenDetails = some d →
      ∃ result, addSessionTokenUsage store agentId sessionId usage now = .ok result) := by
  constructor
  · intro hnone
    unfold addSessionTokenUsage
    rw [hread]
    simp only [exceptBind_ok, hnone, exceptBind_error]
  · intro d hd
    unfold addSessionTokenUsage
    rw [hread]
    simp only [exceptBind_ok, hd]
    exact ⟨_, rfl⟩

/-- Witness for C10 at a concrete store and usage payload. -/
theorem c10_missing_details_type_error_witness :
    addSessionTokenUsage opsStore "ops" "default" {} "T" = .error .typeError := by
  exact (c10_missing_details_type_error opsStore "ops" "default" "T" {} ⟨0, 0, 0, 0⟩ rfl).1 rfl

/-! ## Claim C4 — unknown agent handling -/

/-- Claim C4 counterexample: `appendSessionMessages` returns before the
agent-existence check when the batch is empty, so with an unknown agent and
an empty batch it succeeds as a no-op instead of failing with `NotFound`;
the claim as stated ("for every input, including an empty batch") is
false. -/
theorem c4_notfound_cex :
    appendSessionMessages emptyStore "ghost" "default" [] "T" =
      .ok (emptyStore, ()) := rfl

/-- Claim C4 (amended): every session-store operation other than
`createAgent`, called with an agent id for which no agent record exists,
fails with `NotFound` before any write (the error carries no updated store),
for every input — except that `appendSessionMessages` with an empty batch
returns successfully without side effects, and `updateAgentSystemPrompt`
with blank text fails with `InvalidInput` because its blank-prompt
validation precedes the agent-existence check. -/
theorem c4_notfound_amended (store : Store) (agentId sessionId now bootstrapPrompt : String)
    (message : Msg) (batch : List Msg) (usage : LanguageModelUsage)
    (text : String) (server : AgentMcpServer) (serverId : String)
    (h : store.agents agentId = none) :
    listAgentSessions store agentId now = .error (.agentNotFound agentId) ∧
    getSessionMessages store agentId sessionId = .error (.agentNotFound agentId) ∧
    appendSessionMessage store agentId sessionId message now =
      .error (.agentNotFound agentId) ∧
    (batch ≠ [] → appendSessionMessages store agentId sessionId batch now =
      .error (.agentNotFound agentId)) ∧
    appendSessionMessages store agentId sessionId [] now = .ok (store, ()) ∧
    clearSessionMessages store agentId sessionId now = .error (.agentNotFound agentId) ∧
    getSessionTokenUsage store agentId sessionId = .error (.agentNotFound agentId) ∧
    addSessionTokenUsage store agentId sessionId usage now =
      .error (.agentNotFound agentId) ∧
    getAgentSystemPrompt store agentId bootstrapPrompt =
      .error (.agentNotFound agentId) ∧
    (jsTrim text ≠ "" → updateAgentSystemPrompt store agentId text now =
      .error (.agentNotFound agentId)) ∧
    (jsTrim text = "" → updateAgentSystemPrompt store agentId text now =
      .error .systemPromptRequired) ∧
    listAgentMcpServers store agentId = .error (.agentNotFound agentId) ∧
    addAgentMcpServer store agentId server now = .error (.agentNotFound agentId) ∧
    updateAgentMcpServer store agentId serverId server now =
      .error (.agentNotFound agentId) ∧
    deleteAgentMcpServer store agentId serverId now = .error (.agentNotFound agentId) := by
  have hassert : assertAgentExists store agentId = .error (.agentNotFound agentId) := by
    simp [assertAgentExists, h]
  refine ⟨?_, ?_, ?_, ?_, ?_, ?_, ?_, ?_, ?_, ?_, ?_, ?_, ?_, ?_, ?_⟩
  · simp only [listAgentSessions, hassert, exceptBind_error]
  · simp only [getSessionMessages, hassert, exceptBind_error]
  · simp only [appendSessionMessage, hassert, exceptBind_error]
  · intro hb
    simp only [appendSessionMessages, hb, if_neg, hassert, exceptBind_error, if_false]
  · rfl
  · simp only [clearSessionMessages, hassert, exceptBind_error]
  · simp only [getSessionTokenUsage, hassert, exceptBind_error]
  · simp only [addSessionTokenUsage, getSessionTokenUsage, hassert, exceptBind_error]
  · simp only [getAgentSystemPrompt, hassert, exceptBind_error]
  · intro ht
    simp only [updateAgentSystemPrompt, ht, if_neg, hassert, exceptBind_error, if_false]
  · intro ht
    simp only [updateAgentSystemPrompt, ht, if_pos]
  · simp only [listAgentMcpServers, hassert, exceptBind_error]
  · simp only [addAgentMcpServer, hassert, exceptBind_error]
  · simp only [updateAgentMcpServer, hassert, exceptBind_error]
  · simp only [deleteAgentMcpServer, hassert, exceptBind_error]

/-- Witness for C4's amended theorem at a concrete unknown agent. -/
theorem c4_notfound_amended_witness :
    listAgentSessions emptyStore "ghost" "T" = .error (.agentNotFound "ghost") ∧
    appendSessionMessages emptyStore "ghost" "default"
      [{ role := "user", content := "hi" }] "T" = .error (.agentNotFound "ghost") := by
  have h := c4_notfound_amended emptyStore "ghost" "default" "T" "B"
    { role := "user", content := "hi" } [{ role := "user", content := "hi" }]
    {} "hello" cexServerUnderscore "sid" rfl
  exact ⟨h.1, h.2.2.2.1 (by simp)⟩

/-! ## Store projection lemmas -/

theorem assertAgentExists_ok_elim {store : Store} {agentId : String} {a : AgentRec}
    (h : assertAgentExists store agentId = .ok a) :
    store.agents agentId = some a ∧ ¬(a.id.getD "" = "" ∨ a.name.getD "" = "") := by
  unfold assertAgentExists at h
  split at h
  · cases h
  · rename_i rec hrec
    split at h
    · cases h
    · rename_i hty
      injection h with h2
      subst h2
      exact ⟨hrec, hty⟩

theorem assertAgentExists_touched (t : Store) {store : Store} {agentId : String}
    {a : AgentRec} (h : assertAgentExists store agentId = .ok a) (ts : String)
    (hs : t.agents agentId = some { a with updatedAt := some ts }) :
    assertAgentExists t agentId = .ok { a with updatedAt := some ts } := by
  obtain ⟨_, hty⟩ := assertAgentExists_ok_elim h
  unfold assertAgentExists
  rw [hs]
  exact if_neg hty

theorem ensureSession_agents_self {store : Store} (agentId sessionId ts : String)
    {a : AgentRec} (hrec : store.agents agentId = some a) :
    (ensureSession store agentId sessionId ts).agents agentId =
      some { a with updatedAt := some ts } := by
  unfold ensureSession Store.hsetSession Store.hsetAgent
  by_cases hex : (store.sessions agentId sessionId).isSome <;>
    simp [hex, updFn, hrec]

theorem ensureSession_messages_eq (store : Store) (agentId sessionId ts : String) :
    (ensureSession store agentId sessionId ts).messages = store.messages := by
  unfold ensureSession Store.hsetSession Store.hsetAgent
  by_cases hex : (store.sessions agentId sessionId).isSome <;> simp [hex]

theorem ensureSession_sessionSets_eq (store : Store) (agentId sessionId ts : String) :
    (ensureSession store agentId sessionId ts).sessionSets =
      updFn store.sessionSets agentId (saddList (store.sessionSets agentId) sessionId) := by
  unfold ensureSession Store.hsetSession Store.hsetAgent
  by_cases hex : (store.sessions agentId sessionId).isSome <;> simp [hex]

theorem mem_saddList (l : List String) (x : String) : x ∈ saddList l x := by
  unfold saddList
  by_cases h : x ∈ l <;> simp [h]

/-! ## Claim C5 — start-fresh semantics of clearMessages -/

/-- Claim C5: for every existing agent and session id, `clearSessionMessages`
succeeds, and afterwards the message log is empty, the four usage counters
read zero, and `listAgentSessions` still reports the session as existing. -/
theorem c5_clear_messages_start_fresh (store : Store) (agentId sessionId now now₂ : String)
    (a : AgentRec) (hagent : assertAgentExists store agentId = .ok a) :
    (∃ s', clearSessionMessages store agentId sessionId now = .ok (s', ())) ∧
    (∀ s', clearSessionMessages store agentId sessionId now = .ok (s', ()) →
      getSessionMessages s' agentId sessionId = .ok [] ∧
      getSessionTokenUsage s' agentId sessionId = .ok ⟨0, 0, 0, 0⟩ ∧
      ∃ r, listAgentSessions s' agentId now₂ = .ok r ∧
        (⟨sessionId⟩ : AgentSession) ∈ r.2) := by
  have hrec := (assertAgentExists_ok_elim hagent).1
  constructor
  · unfold clearSessionMessages
    rw [hagent, exceptBind_ok]
    exact ⟨_, rfl⟩
  · intro s' heq
    unfold clearSessionMessages at heq
    rw [hagent, exceptBind_ok] at heq
    injection heq with h1
    injection h1 with h2 _
    subst h2
    have htouch := assertAgentExists_touched (ensureSession store agentId sessionId now)
      hagent now (ensureSession_agents_self agentId sessionId now hrec)
    refine ⟨?_, ?_, ?_⟩
    · unfold getSessionMessages
      rw [show assertAgentExists
          (Store.hsetSession
            { ensureSession store agentId sessionId now with
              messages := updFn2 (ensureSession store agentId sessionId now).messages
                agentId sessionId [] }
            agentId sessionId _) agentId = .ok { a with updatedAt := some now } from htouch,
        exceptBind_ok]
      simp [Store.hsetSession, updFn2]
    · unfold getSessionTokenUsage
      rw [show assertAgentExists
          (Store.hsetSession
            { ensureSession store agentId sessionId now with
              messages := updFn2 (ensureSession store agentId sessionId now).messages
                agentId sessionId [] }
            agentId sessionId _) agentId = .ok { a with updatedAt := some now } from htouch,
        exceptBind_ok]
      simp [Store.hsetSession, updFn2]
    · unfold listAgentSessions
      rw [show assertAgentExists
          (Store.hsetSession
            { ensureSession store agentId sessionId now with
              messages := updFn2 (ensureSession store agentId sessionId now).messages
                agentId sessionId [] }
            agentId sessionId _) agentId = .ok { a with updatedAt := some now } from htouch,
        exceptBind_ok]
      have hsets : (Store.hsetSession
          { ensureSession store agentId sessionId now with
            messages := updFn2 (ensureSession store agentId sessionId now).messages
              agentId sessionId [] }
          agentId sessionId (fun r =>
            { r with
              updatedAt := some now
              usageInputTokens := some 0
              usageReasoningTokens := some 0
              usageOutputTokens := some 0
              usageTotalTokens := some 0 })).sessionSets agentId =
          saddList (store.sessionSets agentId) sessionId := by
        simp [Store.hsetSession, ensureSession_sessionSets_eq, updFn]
      rw [hsets]
      have hne : saddList (store.sessionSets agentId) sessionId ≠ [] := by
        intro hnil
        have hm := mem_saddList (store.sessionSets agentId) sessionId
        rw [hnil] at hm
        cases hm
      rw [if_neg hne]
      refine ⟨_, rfl, ?_⟩
      refine List.mem_map_of_mem _ ?_
      rw [List.mem_insertionSort]
      exact mem_saddList _ _

/-- Witness for C5 at a concrete agent and session. -/
theorem c5_clear_messages_start_fresh_witness :
    ∃ s', clearSessionMessages opsStore "ops" "default" "T1" = .ok (s', ()) := by
  exact (c5_clear_messages_start_fresh opsStore "ops" "default" "T1" "T2" opsAgentRec rfl).1

/-! ## Claim C7 — idempotent lazy session creation -/

theorem saddList_of_mem {l : List String} {x : String} (h : x ∈ l) : saddList l x = l := by
  simp [saddList, h]

theorem saddList_of_not_mem {l : List String} {x : String} (h : x ∉ l) :
    saddList l x = l ++ [x] := by
  simp [saddList, h]

theorem ensureSession_sessions_isSome (store : Store) (agentId sessionId ts : String) :
    ((ensureSession store agentId sessionId ts).sessions agentId sessionId).isSome = true := by
  unfold ensureSession Store.hsetSession Store.hsetAgent
  by_cases hex : (store.sessions agentId sessionId).isSome <;> simp [hex, updFn2]

theorem ensureSession_sessions_fresh {store : Store} {agentId sessionId : String} (ts : String)
    (h : store.sessions agentId sessionId = none) :
    (ensureSession store agentId sessionId ts).sessions agentId sessionId =
      some
        { id := some sessionId
          agentId := some agentId
          createdAt := some ts
          updatedAt := some ts
          lastMessageAt := none
          usageInputTokens := some 0
          usageReasoningTokens := some 0
          usageOutputTokens := some 0
          usageTotalTokens := some 0 } := by
  unfold ensureSession Store.hsetSession Store.hsetAgent
  simp [h, updFn2]

theorem ensureSession_sessions_existing {store : Store} {agentId sessionId : String} (ts : String)
    {rec : SessionRec} (h : store.sessions agentId sessionId = some rec) :
    (ensureSession store agentId sessionId ts).sessions agentId sessionId =
      some { rec with updatedAt := some ts } := by
  unfold ensureSession Store.hsetSession Store.hsetAgent
  simp [h, updFn2]

theorem appendSessionMessage_ok {store : Store} {agentId : String} {a : AgentRec}
    (hagent : assertAgentExists store agentId = .ok a) (sessionId : String) (m : Msg)
    (now : String) :
    appendSessionMessage store agentId sessionId m now =
      .ok (appendOneStore store agentId sessionId m now, m) := by
  unfold appendSessionMessage appendOneStore
  rw [hagent, exceptBind_ok]

theorem appendOneStore_sessionSets (store : Store) (agentId sessionId : String) (m : Msg)
    (now : String) :
    (appendOneStore store agentId sessionId m now).sessionSets =
      updFn store.sessionSets agentId (saddList (store.sessionSets agentId) sessionId) := by
  unfold appendOneStore Store.hsetSession
  exact ensureSession_sessionSets_eq store agentId sessionId now

theorem appendOneStore_agents (store : Store) (agentId sessionId : String) (m : Msg)
    (now : String) :
    (appendOneStore store agentId sessionId m now).agents =
      (ensureSession store agentId sessionId now).agents := rfl

theorem appendOneStore_sessions_self (store : Store) (agentId sessionId : String) (m : Msg)
    (now : String) :
    (appendOneStore store agentId sessionId m now).sessions agentId sessionId =
      some
        { ((ensureSession store agentId sessionId now).sessions agentId sessionId).getD {} with
          updatedAt := some now, lastMessageAt := some now } := by
  unfold appendOneStore Store.hsetSession
  simp [updFn2]

/-- Claim C7: referencing an unknown session id of an existing agent creates
the session record exactly once.  `listAgentSessions` on an agent with no
sessions creates exactly the default session and repeating the call returns
the same store; `appendSessionMessage` with a never-before-seen session id
adds exactly that id to the session set and creates its record, and a second
call neither grows the set nor re-creates the record (its `createdAt` is
preserved). -/
theorem c7_lazy_session_creation (store : Store) (agentId sessionId now now₂ : String)
    (m₁ m₂ : Msg) (a : AgentRec) (hagent : assertAgentExists store agentId = .ok a) :
    (store.sessionSets agentId = [] →
      ∃ s₁, listAgentSessions store agentId now = .ok (s₁, [⟨defaultSessionId⟩]) ∧
        s₁.sessionSets agentId = [defaultSessionId] ∧
        ((s₁.sessions agentId defaultSessionId).isSome = true) ∧
        listAgentSessions s₁ agentId now₂ = .ok (s₁, [⟨defaultSessionId⟩])) ∧
    (sessionId ∉ store.sessionSets agentId → store.sessions agentId sessionId = none →
      ∃ s₁, appendSessionMessage store agentId sessionId m₁ now = .ok (s₁, m₁) ∧
        s₁.sessionSets agentId = store.sessionSets agentId ++ [sessionId] ∧
        (∃ r₁, s₁.sessions agentId sessionId = some r₁ ∧ r₁.createdAt = some now) ∧
        ∃ s₂, appendSessionMessage s₁ agentId sessionId m₂ now₂ = .ok (s₂, m₂) ∧
          s₂.sessionSets agentId = s₁.sessionSets agentId ∧
          ∃ r₂, s₂.sessions agentId sessionId = some r₂ ∧ r₂.createdAt = some now) := by
  have hrec := (assertAgentExists_ok_elim hagent).1
  constructor
  · intro hempty
    refine ⟨ensureSession store agentId defaultSessionId now, ?_, ?_, ?_, ?_⟩
    · unfold listAgentSessions
      rw [hagent, exceptBind_ok]
      simp [hempty]
    · rw [ensureSession_sessionSets_eq]
      simp [updFn, hempty, saddList]
    · exact ensureSession_sessions_isSome store agentId defaultSessionId now
    · have htouch := assertAgentExists_touched _ hagent now
        (ensureSession_agents_self agentId defaultSessionId now hrec)
      unfold listAgentSessions
      rw [htouch, exceptBind_ok]
      have hsets : (ensureSession store agentId defaultSessionId now).sessionSets agentId =
          [defaultSessionId] := by
        rw [ensureSession_sessionSets_eq]
        simp [updFn, hempty, saddList]
      simp [hsets]
  · intro hnotmem hnone
    have h1 := appendSessionMessage_ok hagent sessionId m₁ now
    have hsets₁ : (appendOneStore store agentId sessionId m₁ now).sessionSets agentId =
        store.sessionSets agentId ++ [sessionId] := by
      rw [appendOneStore_sessionSets]
      simp [updFn, saddList_of_not_mem hnotmem]
    have hr₁ : (appendOneStore store agentId sessionId m₁ now).sessions agentId sessionId =
        some
          { id := some sessionId
            agentId := some agentId
            createdAt := some now
            updatedAt := some now
            lastMessageAt := some now
            usageInputTokens := some 0
            usageReasoningTokens := some 0
            usageOutputTokens := some 0
            usageTotalTokens := some 0 } := by
      rw [appendOneStore_sessions_self, ensureSession_sessions_fresh now hnone]
      rfl
    have htouch₁ : assertAgentExists (appendOneStore store agentId sessionId m₁ now) agentId =
        .ok { a with updatedAt := some now } := by
      apply assertAgentExists_touched _ hagent now
      rw [appendOneStore_agents]
      exact ensureSession_agents_self agentId sessionId now hrec
    have h2 := appendSessionMessage_ok htouch₁ sessionId m₂ now₂
    refine ⟨_, h1, hsets₁, ⟨_, hr₁, rfl⟩, _, h2, ?_, ?_⟩
    · rw [appendOneStore_sessionSets]
      have hmem : sessionId ∈ (appendOneStore store agentId sessionId m₁ now).sessionSets agentId := by
        rw [hsets₁]
        exact List.mem_append_right _ (List.mem_singleton.2 rfl)
      simp [updFn, saddList_of_mem hmem]
    · refine ⟨{ id := some sessionId
                agentId := some agentId
                createdAt := some now
                updatedAt := some now₂
                lastMessageAt := some now₂
                usageInputTokens := some 0
                usageReasoningTokens := some 0
                usageOutputTokens := some 0
                usageTotalTokens := some 0 }, ?_, rfl⟩
      rw [appendOneStore_sessions_self, ensureSession_sessions_existing now₂ hr₁]
      rfl

/-- Witness for C7 at a concrete agent with no sessions. -/
theorem c7_lazy_session_creation_witness :
    ∃ s₁, listAgentSessions opsStore "ops" "T1" = .ok (s₁, [⟨defaultSessionId⟩]) ∧
      s₁.sessionSets "ops" = [defaultSessionId] ∧
      ((s₁.sessions "ops" defaultSessionId).isSome = true) ∧
      listAgentSessions s₁ "ops" "T2" = .ok (s₁, [⟨defaultSessionId⟩]) := by
  exact (c7_lazy_session_creation opsStore "ops" "side" "T1" "T2"
    { role := "user", content := "hi" } { role := "user", content := "again" }
    opsAgentRec rfl).1 rfl

/-! ## Claim C2 — usage accumulation -/

theorem assertAgentExists_congr (s₂ s₁ : Store) (h : s₂.agents = s₁.agents)
    (agentId : String) :
    assertAgentExists s₂ agentId = assertAgentExists s₁ agentId := by
  unfold assertAgentExists
  rw [h]

theorem addUsage_delta_step {store : Store} {agentId sessionId : String} {a : AgentRec}
    (hagent : assertAgentExists store agentId = .ok a) (d : Nat × Nat × Nat × Nat)
    (u : SessionTokenUsage)
    (husage : getSessionTokenUsage store agentId sessionId = .ok u) (now : String) :
    ∃ store',
      addSessionTokenUsage store agentId sessionId (mkUsageDelta d) now =
        .ok (store',
          ⟨u.inputTokens + d.1, u.reasoningTokens + d.2.1,
           u.outputTokens + d.2.2.1, u.totalTokens + d.2.2.2⟩) ∧
      store'.agents = store.agents ∧
      getSessionTokenUsage store' agentId sessionId =
        .ok ⟨u.inputTokens + d.1, u.reasoningTokens + d.2.1,
             u.outputTokens + d.2.2.1, u.totalTokens + d.2.2.2⟩ := by
  have hassert2 : ∀ g : SessionRec → SessionRec,
      assertAgentExists (store.hsetSession agentId sessionId g) agentId = .ok a := by
    intro g
    rw [assertAgentExists_congr (store.hsetSession agentId sessionId g) store rfl]
    exact hagent
  unfold addSessionTokenUsage
  rw [husage, exceptBind_ok]
  refine ⟨_, rfl, rfl, ?_⟩
  unfold getSessionTokenUsage
  rw [hassert2, exceptBind_ok]
  simp [Store.hsetSession, updFn2, mkUsageDelta, Option.orElse]

theorem addUsageDeltas_invariant (deltas : List (Nat × Nat × Nat × Nat)) :
    ∀ (store : Store) (agentId sessionId now : String) (a : AgentRec)
      (u : SessionTokenUsage),
      assertAgentExists store agentId = .ok a →
      getSessionTokenUsage store agentId sessionId = .ok u →
      ∃ store', addUsageDeltas store agentId sessionId deltas now = .ok store' ∧
        store'.agents = store.agents ∧
        getSessionTokenUsage store' agentId sessionId =
          .ok ⟨u.inputTokens + (sumUsage deltas).inputTokens,
               u.reasoningTokens + (sumUsage deltas).reasoningTokens,
               u.outputTokens + (sumUsage deltas).outputTokens,
               u.totalTokens + (sumUsage deltas).totalTokens⟩ := by
  induction deltas with
  | nil =>
    intro store agentId sessionId now a u hagent husage
    refine ⟨store, rfl, rfl, ?_⟩
    simpa [sumUsage] using husage
  | cons d rest ih =>
    intro store agentId sessionId now a u hagent husage
    obtain ⟨s₁, hs₁, hagents₁, husage₁⟩ := addUsage_delta_step hagent d u husage now
    have hagent₁ : assertAgentExists s₁ agentId = .ok a := by
      rw [assertAgentExists_congr s₁ store hagents₁]
      exact hagent
    obtain ⟨s₂, hs₂, hagents₂, husage₂⟩ := ih s₁ agentId sessionId now a _ hagent₁ husage₁
    refine ⟨s₂, ?_, by rw [hagents₂, hagents₁], ?_⟩
    · unfold addUsageDeltas
      rw [hs₁, exceptBind_ok]
      exact hs₂
    · rw [husage₂]
      simp [sumUsage, Nat.add_assoc]

/-- Claim C2: starting from all-zero counters, applying a sequence of
`addSessionTokenUsage` calls one at a time leaves the stored usage equal to
the field-wise sum of the deltas in all four fields. -/
theorem c2_usage_accumulation (store : Store) (agentId sessionId now : String)
    (deltas : List (Nat × Nat × Nat × Nat)) (a : AgentRec)
    (hagent : assertAgentExists store agentId = .ok a)
    (hzero : getSessionTokenUsage store agentId sessionId = .ok ⟨0, 0, 0, 0⟩) :
    ∃ store', addUsageDeltas store agentId sessionId deltas now = .ok store' ∧
      getSessionTokenUsage store' agentId sessionId = .ok (sumUsage deltas) := by
  obtain ⟨store', hrun, _, husage⟩ :=
    addUsageDeltas_invariant deltas store agentId sessionId now a ⟨0, 0, 0, 0⟩ hagent hzero
  refine ⟨store', hrun, ?_⟩
  simpa [sumUsage] using husage

/-- Witness for C2 at a concrete agent and delta sequence. -/
theorem c2_usage_accumulation_witness :
    ∃ store', addUsageDeltas opsStore "ops" "default" [(1, 2, 3, 4), (10, 20, 30, 40)] "T"
        = .ok store' ∧
      getSessionTokenUsage store' "ops" "default" =
        .ok (sumUsage [(1, 2, 3, 4), (10, 20, 30, 40)]) := by
  exact c2_usage_accumulation opsStore "ops" "default" "T"
    [(1, 2, 3, 4), (10, 20, 30, 40)] opsAgentRec rfl rfl

/-! ## Claim C6 — memory day-bucketing -/

theorem dropWhile_cons_false {p : Char → Bool} {c : Char} {l : List Char}
    (h : p c = false) : (c :: l).dropWhile p = c :: l := by
  rw [List.dropWhile_cons]
  simp [h]

theorem head_dropWhile_false (p : Char → Bool) (l : List Char) :
    ∀ c, (l.dropWhile p).head? = some c → p c = false := by
  induction l with
  | nil => intro c h; cases h
  | cons x xs ih =>
    intro c h
    rw [List.dropWhile_cons] at h
    by_cases hp : p x
    · rw [if_pos hp] at h
      exact ih c h
    · rw [if_neg hp] at h
      injection h with h2
      subst h2
      exact Bool.eq_false_iff.2 hp

theorem trimList_stable {c : Char} {l : List Char} (hc : jsIsWhitespace c = false)
    (hlast : ∀ d, (c :: l).getLast? = some d → jsIsWhitespace d = false) :
    trimList (c :: l) = c :: l := by
  unfold trimList
  rw [dropWhile_cons_false hc]
  cases hrev : (c :: l).reverse with
  | nil => exact absurd hrev (by simp)
  | cons d r =>
    have hd : (c :: l).getLast? = some d := by
      rw [← List.head?_reverse, hrev]
      rfl
    rw [dropWhile_cons_false (hlast d hd), ← hrev, List.reverse_reverse]

theorem jsTrim_data_getLast_not_ws (s : String) :
    ∀ d, (jsTrim s).data.getLast? = some d → jsIsWhitespace d = false := by
  intro d h
  unfold jsTrim trimList at h
  rw [List.getLast?_reverse] at h
  exact head_dropWhile_false _ _ d h

theorem jsTrim_data_ne_nil {s : String} (h : jsTrim s ≠ "") : (jsTrim s).data ≠ [] := by
  intro hd
  exact h (String.ext hd)

theorem memoryLine_data (now content : String) :
    (memoryLine now content).data =
      '[' :: (now.data ++ (']' :: ' ' :: (jsTrim content).data)) := by
  unfold memoryLine
  have h1 : ("[" : String).data = ['['] := rfl
  have h2 : ("] " : String).data = [']', ' '] := rfl
  simp [String.data_append, h1, h2]

theorem memoryLine_ne_empty (now content : String) : memoryLine now content ≠ "" := by
  intro h
  have hd := congrArg String.data h
  rw [memoryLine_data] at hd
  cases hd

theorem memoryLine_trim_stable {content : String} (now : String) (h : jsTrim content ≠ "") :
    jsTrim (memoryLine now content) = memoryLine now content := by
  have hdata := memoryLine_data now content
  have hlast : ∀ d, (memoryLine now content).data.getLast? = some d →
      jsIsWhitespace d = false := by
    intro d hd
    rw [hdata] at hd
    rw [show ('[' :: (now.data ++ (']' :: ' ' :: (jsTrim content).data))) =
        ('[' :: now.data ++ [']', ' ']) ++ (jsTrim content).data by simp] at hd
    rw [List.getLast?_append_of_ne_nil _ (jsTrim_data_ne_nil h)] at hd
    exact jsTrim_data_getLast_not_ws content d hd
  apply String.ext
  show trimList (memoryLine now content).data = (memoryLine now content).data
  calc trimList (memoryLine now content).data
      = trimList ('[' :: (now.data ++ (']' :: ' ' :: (jsTrim content).data))) := by
        rw [hdata]
    _ = '[' :: (now.data ++ (']' :: ' ' :: (jsTrim content).data)) := by
        refine trimList_stable ?_ ?_
        · decide
        · intro d hd
          rw [← hdata] at hd
          exact hlast d hd
    _ = (memoryLine now content).data := by rw [← hdata]

theorem appendAgentMemory_fresh {idx : MemoryIndex} (agentId : String)
    {content now : String}
    (hc : jsTrim content ≠ "") (hfresh : idx (jsSlice now 10) = none) :
    appendAgentMemory idx agentId content now =
      .ok (updFn idx (jsSlice now 10) (some
        { id := jsSlice now 10
          content :=
            { text := memoryLine now content
              day := jsSlice now 10
              createdAt := now
              updatedAt := now
              entries := 1 }
          metadata := some { agentId := agentId, day := jsSlice now 10 } }),
        { index := agentId, id := jsSlice now 10, entries := 1 }) := by
  unfold appendAgentMemory
  simp [if_neg hc, hfresh]

theorem appendAgentMemory_existing {idx : MemoryIndex} (agentId : String)
    {content now : String} {doc : AgentMemoryDocument}
    (hc : jsTrim content ≠ "") (hdoc : idx (jsSlice now 10) = some doc)
    (htext : jsTrim doc.content.text = doc.content.text)
    (hne : doc.content.text ≠ "") :
    appendAgentMemory idx agentId content now =
      .ok (updFn idx (jsSlice now 10) (some
        { id := jsSlice now 10
          content :=
            { text := doc.content.text ++ "\n" ++ memoryLine now content
              day := jsSlice now 10
              createdAt := doc.content.createdAt
              updatedAt := now
              entries := doc.content.entries + 1 }
          metadata := some { agentId := agentId, day := jsSlice now 10 } }),
        { index := agentId, id := jsSlice now 10, entries := doc.content.entries + 1 }) := by
  unfold appendAgentMemory
  simp only [if_neg hc, hdoc, Option.map_some', Option.getD_some, htext, if_neg hne]

/-- Claim C6: appending two non-blank memory entries on the same calendar
day yields exactly one document for that day, with entry counter 2 and text
holding both timestamped entries in append order (and no other day's
document touched); appending on two different days yields two distinct
documents with counter 1 each; each append returns the day identifier and
the new entry count, starting at 1 for a new day. -/
theorem c6_memory_day_bucketing (idx : MemoryIndex) (agentId c₁ c₂ now₁ now₂ : String)
    (h₁ : jsTrim c₁ ≠ "") (h₂ : jsTrim c₂ ≠ "")
    (hfresh : idx (jsSlice now₁ 10) = none) :
    (jsSlice now₂ 10 = jsSlice now₁ 10 →
      ∃ idx₁ idx₂,
        appendAgentMemory idx agentId c₁ now₁ =
          .ok (idx₁, { index := agentId, id := jsSlice now₁ 10, entries := 1 }) ∧
        appendAgentMemory idx₁ agentId c₂ now₂ =
          .ok (idx₂, { index := agentId, id := jsSlice now₁ 10, entries := 2 }) ∧
        (∃ doc, idx₂ (jsSlice now₁ 10) = some doc ∧
          doc.content.entries = 2 ∧
          doc.content.text = memoryLine now₁ c₁ ++ "\n" ++ memoryLine now₂ c₂) ∧
        (∀ d, d ≠ jsSlice now₁ 10 → idx₂ d = idx d)) ∧
    (jsSlice now₂ 10 ≠ jsSlice now₁ 10 → idx (jsSlice now₂ 10) = none →
      ∃ idx₁ idx₂,
        appendAgentMemory idx agentId c₁ now₁ =
          .ok (idx₁, { index := agentId, id := jsSlice now₁ 10, entries := 1 }) ∧
        appendAgentMemory idx₁ agentId c₂ now₂ =
          .ok (idx₂, { index := agentId, id := jsSlice now₂ 10, entries := 1 }) ∧
        (∃ doc₁, idx₂ (jsSlice now₁ 10) = some doc₁ ∧
          doc₁.id = jsSlice now₁ 10 ∧ doc₁.content.entries = 1) ∧
        (∃ doc₂, idx₂ (jsSlice now₂ 10) = some doc₂ ∧
          doc₂.id = jsSlice now₂ 10 ∧ doc₂.content.entries = 1)) := by
  have happ₁ := appendAgentMemory_fresh agentId h₁ hfresh
  constructor
  · intro hday
    have hdoc : updFn idx (jsSlice now₁ 10) (some
        { id := jsSlice now₁ 10
          content :=
            { text := memoryLine now₁ c₁
              day := jsSlice now₁ 10
              createdAt := now₁
              updatedAt := now₁
              entries := 1 }
          metadata := some { agentId := agentId, day := jsSlice now₁ 10 } })
        (jsSlice now₂ 10) = some
        { id := jsSlice now₁ 10
          content :=
            { text := memoryLine now₁ c₁
              day := jsSlice now₁ 10
              createdAt := now₁
              updatedAt := now₁
              entries := 1 }
          metadata := some { agentId := agentId, day := jsSlice now₁ 10 } } := by
      simp [updFn, hday]
    have happ₂ := appendAgentMemory_existing agentId h₂ hdoc
      (memoryLine_trim_stable now₁ h₁) (memoryLine_ne_empty now₁ c₁)
    rw [hday] at happ₂
    refine ⟨_, _, happ₁, happ₂, ?_, ?_⟩
    · refine ⟨{ id := jsSlice now₁ 10
                content :=
                  { text := memoryLine now₁ c₁ ++ "\n" ++ memoryLine now₂ c₂
                    day := jsSlice now₁ 10
                    createdAt := now₁
                    updatedAt := now₂
                    entries := 2 }
                metadata := some { agentId := agentId, day := jsSlice now₁ 10 } },
        ?_, rfl, rfl⟩
      simp [updFn]
    · intro d hd
      have hd₂ : d ≠ jsSlice now₂ 10 := by rw [hday]; exact hd
      simp [updFn, hd, hd₂]
  · intro hday hfresh₂
    have hfresh₂' : updFn idx (jsSlice now₁ 10) (some
        { id := jsSlice now₁ 10
          content :=
            { text := memoryLine now₁ c₁
              day := jsSlice now₁ 10
              createdAt := now₁
              updatedAt := now₁
              entries := 1 }
          metadata := some { agentId := agentId, day := jsSlice now₁ 10 } })
        (jsSlice now₂ 10) = none := by
      simp [updFn, hday, hfresh₂]
    have happ₂ := appendAgentMemory_fresh agentId h₂ hfresh₂'
    refine ⟨_, _, happ₁, happ₂, ?_, ?_⟩
    · refine ⟨{ id := jsSlice now₁ 10
                content :=
                  { text := memoryLine now₁ c₁
                    day := jsSlice now₁ 10
                    createdAt := now₁
                    updatedAt := now₁
                    entries := 1 }
                metadata := some { agentId := agentId, day := jsSlice now₁ 10 } },
        ?_, rfl, rfl⟩
      have hne : jsSlice now₁ 10 ≠ jsSlice now₂ 10 := fun h => hday h.symm
      simp [updFn, hne]
    · refine ⟨{ id := jsSlice now₂ 10
                content :=
                  { text := memoryLine now₂ c₂
                    day := jsSlice now₂ 10
                    createdAt := now₂
                    updatedAt := now₂
                    entries := 1 }
                metadata := some { agentId := agentId, day := jsSlice now₂ 10 } },
        ?_, rfl, rfl⟩
      simp [updFn]

/-- Witness for C6 at concrete contents and timestamps. -/
theorem c6_memory_day_bucketing_witness :
    ∃ idx₁ idx₂,
      appendAgentMemory (fun _ => none) "ops" "learned lean"
          "2024-05-01T10:00:00Z" =
        .ok (idx₁, { index := "ops", id := jsSlice "2024-05-01T10:00:00Z" 10, entries := 1 }) ∧
      appendAgentMemory idx₁ "ops" "wrote proofs" "2024-05-01T11:00:00Z" =
        .ok (idx₂, { index := "ops", id := jsSlice "2024-05-01T10:00:00Z" 10, entries := 2 }) ∧
      (∃ doc, idx₂ (jsSlice "2024-05-01T10:00:00Z" 10) = some doc ∧
        doc.content.entries = 2 ∧
        doc.content.text = memoryLine "2024-05-01T10:00:00Z" "learned lean" ++ "\n" ++
          memoryLine "2024-05-01T11:00:00Z" "wrote proofs") ∧
      (∀ d, d ≠ jsSlice "2024-05-01T10:00:00Z" 10 → idx₂ d = (fun _ => none : MemoryIndex) d) := by
  exact (c6_memory_day_bucketing (fun _ => none) "ops" "learned lean" "wrote proofs"
    "2024-05-01T10:00:00Z" "2024-05-01T11:00:00Z" (by decide) (by decide) rfl).1 (by decide)

end Council
